import Mathlib

/-!
Shallow embedding of the weblogic_check exporter (src/main.go).

The collector's scrape logic (ProcessCollector.Collect) is modelled as a
pure function from the outcome of the HTTP GET and the OS process table to
the ordered list of metric samples sent on the channel.  The basic-auth
transport (basicAuthTransport.RoundTrip) is modelled over an explicit
request record with an association-list header map, together with a model
of Go's base64.StdEncoding.EncodeToString.
-/

namespace WeblogicCheck

/-- One WebLogic server runtime entry, as decoded from the REST response
(struct ServerRuntime in main.go). -/
structure ServerRuntime where
  name : String
  state : String
deriving DecidableEq

/-- The inner body object of the serverRuntimes response. -/
structure ServerRuntimesBody where
  items : List ServerRuntime
deriving DecidableEq

/-- The JSON envelope decoded from the serverRuntimes endpoint
(struct ServerRuntimesResponse in main.go). -/
structure ServerRuntimesResponse where
  body : ServerRuntimesBody
deriving DecidableEq

/-- An OS process as seen by the collector: its pid and, when the
command-line is readable, its argument vector.  cmdline = none models
p.CmdlineSlice() returning an error (the process is skipped). -/
structure OSProcess where
  pid : Int
  cmdline : Option (List String)
deriving DecidableEq

/-- One metric sample sent on the channel by MustNewConstMetric: the
descriptor name, its label names, the label values supplied at emission,
and the gauge value (only 0 and 1 occur, both exact in float64, so Nat is
a faithful carrier). -/
structure Sample where
  name : String
  labelNames : List String
  labelValues : List String
  value : Nat
deriving DecidableEq

/-- Configuration of the collector (ProcessCollector fields set by
NewProcessCollector). -/
structure ProcessCollector where
  adminURL : String
  username : String
  password : String
  serverName : String
deriving DecidableEq

/-- Descriptor built by NewProcessCollector for the admin-server gauge:
name and label names. -/
def adminUpDesc : String × List String :=
  ("weblogic_admin_server_up", [])

/-- Descriptor built by NewProcessCollector for the per-server gauge. -/
def serverStatusDesc : String × List String :=
  ("weblogic_server_up", ["server_name"])

/-- Descriptor built by NewProcessCollector for the process-argument
gauge. -/
def processArgDesc : String × List String :=
  ("process_arg", ["server_name", "pid", "index", "value"])

/-- MustNewConstMetric: a sample for one descriptor with given value and
label values. -/
def mkMetric (desc : String × List String) (value : Nat)
    (labelValues : List String) : Sample :=
  ⟨desc.1, desc.2, labelValues, value⟩

/-- Outcome of the GET against the management endpoint, as the collector
observes it: a transport-level error (err ≠ nil from client.Get), or a
response with a status code and, when the body is later decoded, either a
successfully decoded envelope or a decode failure (body = none). -/
inductive FetchResult where
  | transportError
  | status (code : Nat) (body : Option ServerRuntimesResponse)
deriving DecidableEq

/-- The linear search of the range-and-break loop over runtimes.Body.Items:
the first entry whose Name equals the configured server name. -/
def findServer (serverName : String) : List ServerRuntime → Option ServerRuntime
  | [] => none
  | s :: rest => if s.name = serverName then some s else findServer serverName rest

/-- Samples emitted by the server-status loop: one sample for the first
name match (1 if its state is RUNNING, else 0), none when no entry
matches. -/
def serverUpSamples (serverName : String) (items : List ServerRuntime) : List Sample :=
  match findServer serverName items with
  | none => []
  | some s => [mkMetric serverStatusDesc (if s.state = "RUNNING" then 1 else 0) [s.name]]

/-- The command-line marker the process loop looks for. -/
def weblogicNameMarker (serverName : String) : String :=
  "-Dweblogic.Name=" ++ serverName

/-- Samples emitted for one process: nothing if its command line is
unreadable or lacks the marker token; otherwise one sample per argument,
labelled with the server name, the pid rendered in decimal, the zero-based
index, and the argument itself. -/
def processArgSamplesFor (serverName : String) (p : OSProcess) : List Sample :=
  match p.cmdline with
  | none => []
  | some cmdline =>
    if weblogicNameMarker serverName ∈ cmdline then
      cmdline.enum.map
        (fun ia => mkMetric processArgDesc 1 [serverName, toString p.pid, toString ia.1, ia.2])
    else []

/-- Samples emitted by the process loop over the whole process table. -/
def processArgSamples (serverName : String) (ps : List OSProcess) : List Sample :=
  ps.flatMap (processArgSamplesFor serverName)

/-- ProcessCollector.Collect: the ordered list of samples sent on the
channel during one scrape.  procs = none models process.Processes()
returning an error (the scrape truncates after the server-status phase). -/
def collect (c : ProcessCollector) (fetch : FetchResult)
    (procs : Option (List OSProcess)) : List Sample :=
  match fetch with
  | .transportError => [mkMetric adminUpDesc 0 []]
  | .status code body =>
    if code ≠ 200 then
      [mkMetric adminUpDesc 0 []]
    else
      match body with
      | none => [mkMetric adminUpDesc 1 []]
      | some runtimes =>
        let serverPart := serverUpSamples c.serverName runtimes.body.items
        match procs with
        | none => mkMetric adminUpDesc 1 [] :: serverPart
        | some ps =>
          mkMetric adminUpDesc 1 [] :: (serverPart ++ processArgSamples c.serverName ps)

/-- The UTF-8 bytes of one character (Go strings are byte sequences; the
credential strings are carried as their UTF-8 bytes). -/
def utf8Bytes (c : Char) : List Nat :=
  let n := c.toNat
  if n < 128 then [n]
  else if n < 2048 then [192 + n / 64, 128 + n % 64]
  else if n < 65536 then [224 + n / 4096, 128 + n / 64 % 64, 128 + n % 64]
  else [240 + n / 262144, 128 + n / 4096 % 64, 128 + n / 64 % 64, 128 + n % 64]

/-- The byte sequence of a string, as []byte(s) sees it in Go. -/
def strBytes (s : String) : List Nat :=
  s.data.flatMap utf8Bytes

/-- The standard base64 alphabet (RFC 4648, used by Go's
base64.StdEncoding). -/
def base64Chars : List Char :=
  "ABCDEFGHIJKLMNOPQRSTUVWXYZabcdefghijklmnopqrstuvwxyz0123456789+/".data

/-- The alphabet character for a 6-bit value. -/
def b64 (n : Nat) : Char :=
  base64Chars.getD n '?'

/-- Model of base64.StdEncoding.EncodeToString over the byte list: each
3-byte group becomes 4 alphabet characters, a trailing 1- or 2-byte group
is padded with = to a 4-character block. -/
def base64EncodeBytes : List Nat → List Char
  | [] => []
  | [b1] => [b64 (b1 / 4), b64 (b1 % 4 * 16), '=', '=']
  | [b1, b2] => [b64 (b1 / 4), b64 (b1 % 4 * 16 + b2 / 16), b64 (b2 % 16 * 4), '=']
  | b1 :: b2 :: b3 :: rest =>
    b64 (b1 / 4) :: b64 (b1 % 4 * 16 + b2 / 16) :: b64 (b2 % 16 * 4 + b3 / 64) ::
      b64 (b3 % 64) :: base64EncodeBytes rest

/-- base64.StdEncoding.EncodeToString([]byte(s)). -/
def base64StdEncode (s : String) : String :=
  String.mk (base64EncodeBytes (strBytes s))

/-- An outbound HTTP request as the transport sees it: target host and
path, and a header map modelled as an association list. -/
structure Request where
  host : String
  path : String
  headers : List (String × String)
deriving DecidableEq

/-- http.Header.Set: replace any existing values for the key with the
single given value. -/
def headerSet (h : List (String × String)) (key value : String) :
    List (String × String) :=
  (key, value) :: h.filter (fun kv => kv.1 ≠ key)

/-- Header lookup: the value stored for the key, if any. -/
def headerGet (h : List (String × String)) (key : String) : Option String :=
  (h.find? (fun kv => kv.1 = key)).map (fun kv => kv.2)

/-- basicAuthTransport: the credential pair captured at construction. -/
structure BasicAuthTransport where
  username : String
  password : String
deriving DecidableEq

/-- The request that RoundTrip hands to the underlying transport: the
incoming request with its Authorization header set to the Basic credential
string. -/
def BasicAuthTransport.forwarded (t : BasicAuthTransport) (req : Request) : Request :=
  let auth := t.username ++ ":" ++ t.password
  let encoded := base64StdEncode auth
  { req with headers := headerSet req.headers "Authorization" ("Basic " ++ encoded) }

/-- basicAuthTransport.RoundTrip: decorate the request, then delegate to
the underlying transport (http.DefaultTransport), whose answer is returned
unchanged. -/
def BasicAuthTransport.roundTrip {ρ : Type} (t : BasicAuthTransport)
    (transport : Request → ρ) (req : Request) : ρ :=
  transport (t.forwarded req)

/-- The admin_up gauge value determined by the fetch outcome alone: 0 on
the failure paths before decoding, 1 once the status is 200. -/
def adminUpValue : FetchResult → Nat
  | .transportError => 0
  | .status code _ => if code = 200 then 1 else 0

/-- Every sample of the server-status loop carries the weblogic_server_up
descriptor. -/
theorem serverUpSamples_desc (n : String) (items : List ServerRuntime) :
    ∀ s ∈ serverUpSamples n items,
      s.name = "weblogic_server_up" ∧ s.labelNames = ["server_name"] := by
  intro s hs
  unfold serverUpSamples at hs
  cases h : findServer n items with
  | none => rw [h] at hs; simp at hs
  | some srv =>
    rw [h] at hs
    simp at hs
    rw [hs]
    exact ⟨rfl, rfl⟩

/-- Every sample of the per-process loop carries the process_arg
descriptor. -/
theorem processArgSamplesFor_desc (n : String) (p : OSProcess) :
    ∀ s ∈ processArgSamplesFor n p,
      s.name = "process_arg" ∧
        s.labelNames = ["server_name", "pid", "index", "value"] := by
  intro s hs
  unfold processArgSamplesFor at hs
  cases hc : p.cmdline with
  | none => rw [hc] at hs; simp at hs
  | some args =>
    rw [hc] at hs
    dsimp only at hs
    by_cases hm : weblogicNameMarker n ∈ args
    · rw [if_pos hm] at hs
      simp only [List.mem_map] at hs
      obtain ⟨ia, _, rfl⟩ := hs
      exact ⟨rfl, rfl⟩
    · rw [if_neg hm] at hs
      simp at hs

/-- Every sample of the whole process loop carries the process_arg
descriptor. -/
theorem processArgSamples_desc (n : String) (ps : List OSProcess) :
    ∀ s ∈ processArgSamples n ps,
      s.name = "process_arg" ∧
        s.labelNames = ["server_name", "pid", "index", "value"] := by
  intro s hs
  unfold processArgSamples at hs
  rw [List.mem_flatMap] at hs
  obtain ⟨p, _, hp⟩ := hs
  exact processArgSamplesFor_desc n p s hp

/-- Server-status samples never match the admin descriptor name. -/
theorem serverUpSamples_filter_admin (n : String) (items : List ServerRuntime) :
    (serverUpSamples n items).filter
      (fun s => s.name = "weblogic_admin_server_up") = [] := by
  refine List.filter_eq_nil_iff.mpr ?_
  intro s hs
  have hname := (serverUpSamples_desc n items s hs).1
  simp [hname]

/-- Process samples never match the admin descriptor name. -/
theorem processArgSamples_filter_admin (n : String) (ps : List OSProcess) :
    (processArgSamples n ps).filter
      (fun s => s.name = "weblogic_admin_server_up") = [] := by
  refine List.filter_eq_nil_iff.mpr ?_
  intro s hs
  have hname := (processArgSamples_desc n ps s hs).1
  simp [hname]

/-- Process samples never match the server-status descriptor name. -/
theorem processArgSamples_filter_server (n : String) (ps : List OSProcess) :
    (processArgSamples n ps).filter
      (fun s => s.name = "weblogic_server_up") = [] := by
  refine List.filter_eq_nil_iff.mpr ?_
  intro s hs
  have hname := (processArgSamples_desc n ps s hs).1
  simp [hname]

/-- Filtering server-status samples for their own name keeps them all. -/
theorem serverUpSamples_filter_self (n : String) (items : List ServerRuntime) :
    (serverUpSamples n items).filter
      (fun s => s.name = "weblogic_server_up") = serverUpSamples n items := by
  refine List.filter_eq_self.mpr ?_
  intro s hs
  have hname := (serverUpSamples_desc n items s hs).1
  simp [hname]

/-- The server-status loop emits at most one sample. -/
theorem serverUpSamples_length (n : String) (items : List ServerRuntime) :
    (serverUpSamples n items).length ≤ 1 := by
  unfold serverUpSamples
  cases findServer n items <;> simp

/-- The linear search of the loop is the standard first-match search. -/
theorem findServer_eq_find? (n : String) (items : List ServerRuntime) :
    findServer n items = items.find? (fun x => x.name = n) := by
  induction items with
  | nil => rfl
  | cons s rest ih =>
    unfold findServer
    by_cases hx : s.name = n
    · simp [List.find?_cons, hx]
    · simp [List.find?_cons, hx, ih]

/-- Once the search has succeeded, entries appended after the match point
do not change its result. -/
theorem findServer_append_of_isSome (n : String) (items extra : List ServerRuntime)
    (h : (findServer n items).isSome) :
    findServer n (items ++ extra) = findServer n items := by
  induction items with
  | nil => simp [findServer] at h
  | cons s rest ih =>
    by_cases hx : s.name = n
    · simp only [List.cons_append, findServer, if_pos hx]
    · simp only [findServer, if_neg hx] at h
      simp only [List.cons_append, findServer, if_neg hx]
      exact ih h

/-- Shape of a fully successful fetch: collect is the admin sample, the
server-status samples, then (when process enumeration succeeds) the
process samples. -/
theorem collect_success (c : ProcessCollector) (r : ServerRuntimesResponse)
    (procs : Option (List OSProcess)) :
    collect c (.status 200 (some r)) procs =
      mkMetric adminUpDesc 1 [] ::
        (serverUpSamples c.serverName r.body.items ++
          procs.elim [] (processArgSamples c.serverName)) := by
  cases procs <;> simp [collect]

/-- C1 (amended): every sample emitted by a scrape, whatever its outcome,
carries one of the three descriptors wired in NewProcessCollector:
weblogic_admin_server_up with no labels, weblogic_server_up with the single
label server_name, or process_arg with the labels server_name, pid, index,
value. -/
theorem C1_names_and_label_sets (c : ProcessCollector) (fetch : FetchResult)
    (procs : Option (List OSProcess)) (s : Sample)
    (hs : s ∈ collect c fetch procs) :
    (s.name = "weblogic_admin_server_up" ∧ s.labelNames = []) ∨
    (s.name = "weblogic_server_up" ∧ s.labelNames = ["server_name"]) ∨
    (s.name = "process_arg" ∧
      s.labelNames = ["server_name", "pid", "index", "value"]) := by
  cases fetch with
  | transportError =>
    simp only [collect, List.mem_singleton] at hs
    rw [hs]
    exact Or.inl ⟨rfl, rfl⟩
  | status code body =>
    by_cases hcode : code = 200
    · subst hcode
      cases body with
      | none =>
        simp only [collect, ne_eq, not_true_eq_false, if_false,
          reduceIte, List.mem_singleton] at hs
        rw [hs]
        exact Or.inl ⟨rfl, rfl⟩
      | some r =>
        rw [collect_success] at hs
        rcases List.mem_cons.mp hs with h1 | h2
        · rw [h1]
          exact Or.inl ⟨rfl, rfl⟩
        · rcases List.mem_append.mp h2 with hsv | hpr
          · exact Or.inr (Or.inl (serverUpSamples_desc c.serverName r.body.items s hsv))
          · cases procs with
            | none => simp at hpr
            | some ps =>
              exact Or.inr (Or.inr (processArgSamples_desc c.serverName ps s hpr))
    · simp only [collect, if_pos hcode, List.mem_singleton] at hs
      rw [hs]
      exact Or.inl ⟨rfl, rfl⟩

/-- C1 witness: the theorem applied to a concrete failed scrape and its
single emitted sample. -/
theorem C1_witness :
    (Sample.name (mkMetric adminUpDesc 0 []) = "weblogic_admin_server_up" ∧
      Sample.labelNames (mkMetric adminUpDesc 0 []) = []) ∨
    (Sample.name (mkMetric adminUpDesc 0 []) = "weblogic_server_up" ∧
      Sample.labelNames (mkMetric adminUpDesc 0 []) = ["server_name"]) ∨
    (Sample.name (mkMetric adminUpDesc 0 []) = "process_arg" ∧
      Sample.labelNames (mkMetric adminUpDesc 0 [])
        = ["server_name", "pid", "index", "value"]) :=
  C1_names_and_label_sets ⟨"http://h:7001", "u", "pw", "A"⟩ .transportError none
    (mkMetric adminUpDesc 0 []) (by decide)

/-- C1 counterexample: on a concrete scrape the emitted series is named
weblogic_admin_server_up, which is none of the names admin_up, server_up,
process_arg that the claim asserts. -/
theorem C1_counterexample :
    (collect ⟨"http://h:7001", "u", "pw", "A"⟩ .transportError none).map
        (fun s => s.name) = ["weblogic_admin_server_up"] ∧
      "weblogic_admin_server_up" ≠ "admin_up" ∧
      "weblogic_admin_server_up" ≠ "server_up" ∧
      "weblogic_admin_server_up" ≠ "process_arg" := by
  refine ⟨rfl, ?_, ?_, ?_⟩ <;> decide

/-- C2: on a transport-level failure, and on any non-200 status, the
scrape emits exactly the single sample admin_up = 0 — no server_up and no
process_arg samples. -/
theorem C2_admin_down_single_sample :
    (∀ (c : ProcessCollector) (procs : Option (List OSProcess)),
        collect c .transportError procs = [mkMetric adminUpDesc 0 []]) ∧
    (∀ (c : ProcessCollector) (procs : Option (List OSProcess)) (code : Nat)
        (body : Option ServerRuntimesResponse), code ≠ 200 →
        collect c (.status code body) procs = [mkMetric adminUpDesc 0 []]) := by
  constructor
  · intro c procs
    rfl
  · intro c procs code body h
    simp only [collect, if_pos h]

/-- C2 witness: the theorem applied to a concrete 503 response. -/
theorem C2_witness :
    collect ⟨"http://h:7001", "u", "pw", "A"⟩ (.status 503 none) none
      = [mkMetric adminUpDesc 0 []] :=
  C2_admin_down_single_sample.2 ⟨"http://h:7001", "u", "pw", "A"⟩ none 503 none
    (by decide)

/-- C7: on a 200 response whose body fails to decode, the scrape emits
exactly the single sample admin_up = 1, whatever the process table. -/
theorem C7_decode_failure_only_admin (c : ProcessCollector)
    (procs : Option (List OSProcess)) :
    collect c (.status 200 none) procs = [mkMetric adminUpDesc 1 []] := by
  cases procs <;> rfl

/-- C9: every scrape emits exactly one admin_up sample, whose value is 0 on
the failure paths before decoding and 1 otherwise, on every terminal path
of the collector. -/
theorem C9_admin_up_exactly_once (c : ProcessCollector) (fetch : FetchResult)
    (procs : Option (List OSProcess)) :
    (collect c fetch procs).filter (fun s => s.name = "weblogic_admin_server_up")
      = [mkMetric adminUpDesc (adminUpValue fetch) []] := by
  cases fetch with
  | transportError => rfl
  | status code body =>
    by_cases hcode : code = 200
    · subst hcode
      cases body with
      | none => rfl
      | some r =>
        rw [collect_success]
        rw [List.filter_cons, List.filter_append, serverUpSamples_filter_admin]
        cases procs with
        | none => simp [adminUpValue, mkMetric, adminUpDesc]
        | some ps =>
          simp [adminUpValue, mkMetric, adminUpDesc, processArgSamples_filter_admin]
    · simp only [collect, if_pos hcode, adminUpValue, if_neg hcode]
      rfl

/-- C3: when the decoded items list has a first entry whose name equals
the configured server name, the scrape's server_up samples are exactly one
sample for that entry, valued 1 when its state is exactly RUNNING and 0
otherwise. -/
theorem C3_server_up_first_match (c : ProcessCollector) (r : ServerRuntimesResponse)
    (procs : Option (List OSProcess)) (s : ServerRuntime)
    (h : r.body.items.find? (fun x => x.name = c.serverName) = some s) :
    (collect c (.status 200 (some r)) procs).filter
        (fun x => x.name = "weblogic_server_up")
      = [mkMetric serverStatusDesc (if s.state = "RUNNING" then 1 else 0) [s.name]] := by
  have hfind : findServer c.serverName r.body.items = some s := by
    rw [findServer_eq_find?]
    exact h
  have hsv : serverUpSamples c.serverName r.body.items
      = [mkMetric serverStatusDesc (if s.state = "RUNNING" then 1 else 0) [s.name]] := by
    unfold serverUpSamples
    rw [hfind]
  rw [collect_success, List.filter_cons, List.filter_append, hsv]
  cases procs with
  | none => simp [mkMetric, adminUpDesc, serverStatusDesc]
  | some ps => simp [mkMetric, adminUpDesc, serverStatusDesc,
      processArgSamples_filter_server]

/-- C3 witness: a concrete response whose second entry is the target, in
state SHUTDOWN, yields the single server_up sample with value 0. -/
theorem C3_witness :
    (collect ⟨"http://h:7001", "u", "pw", "A"⟩
        (.status 200 (some ⟨⟨[⟨"B", "RUNNING"⟩, ⟨"A", "SHUTDOWN"⟩]⟩⟩)) (some [])).filter
        (fun x => x.name = "weblogic_server_up")
      = [mkMetric serverStatusDesc
          (if ServerRuntime.state ⟨"A", "SHUTDOWN"⟩ = "RUNNING" then 1 else 0)
          [ServerRuntime.name ⟨"A", "SHUTDOWN"⟩]] :=
  C3_server_up_first_match ⟨"http://h:7001", "u", "pw", "A"⟩
    ⟨⟨[⟨"B", "RUNNING"⟩, ⟨"A", "SHUTDOWN"⟩]⟩⟩ (some []) ⟨"A", "SHUTDOWN"⟩ (by decide)

/-- C4: at most one server_up sample is emitted per scrape, and once the
search has matched, entries listed after the match point — whatever their
name or state — contribute nothing. -/
theorem C4_at_most_one_server_up :
    (∀ (c : ProcessCollector) (fetch : FetchResult) (procs : Option (List OSProcess)),
        ((collect c fetch procs).filter
          (fun s => s.name = "weblogic_server_up")).length ≤ 1) ∧
    (∀ (n : String) (items extra : List ServerRuntime),
        (findServer n items).isSome →
        serverUpSamples n (items ++ extra) = serverUpSamples n items) := by
  constructor
  · intro c fetch procs
    cases fetch with
    | transportError => simp [collect, mkMetric, adminUpDesc]
    | status code body =>
      by_cases hcode : code = 200
      · subst hcode
        cases body with
        | none => simp [collect, mkMetric, adminUpDesc]
        | some r =>
          rw [collect_success, List.filter_cons, List.filter_append,
            serverUpSamples_filter_self]
          cases procs with
          | none =>
            simp only [Option.elim, List.filter_nil, List.append_nil,
              mkMetric, adminUpDesc]
            simp
            exact serverUpSamples_length c.serverName r.body.items
          | some ps =>
            simp only [Option.elim]
            rw [processArgSamples_filter_server, List.append_nil]
            simp only [mkMetric, adminUpDesc]
            simp
            exact serverUpSamples_length c.serverName r.body.items
      · simp [collect, if_pos hcode, mkMetric, adminUpDesc]
  · intro n items extra h
    unfold serverUpSamples
    rw [findServer_append_of_isSome n items extra h]

/-- C4 witness: with two entries both named A, appending the second after
the matching first changes nothing. -/
theorem C4_witness :
    serverUpSamples "A" ([⟨"A", "RUNNING"⟩] ++ [⟨"A", "SHUTDOWN"⟩])
      = serverUpSamples "A" [⟨"A", "RUNNING"⟩] :=
  C4_at_most_one_server_up.2 "A" [⟨"A", "RUNNING"⟩] [⟨"A", "SHUTDOWN"⟩] (by decide)

/-- C5: on a 200 response that decodes but holds no entry named like the
target, the scrape emits admin_up = 1, zero server_up samples, and still
runs the process-inspection phase. -/
theorem C5_absent_server (c : ProcessCollector) (r : ServerRuntimesResponse)
    (ps : List OSProcess)
    (h : r.body.items.find? (fun x => x.name = c.serverName) = none) :
    collect c (.status 200 (some r)) (some ps)
        = mkMetric adminUpDesc 1 [] :: processArgSamples c.serverName ps ∧
      (collect c (.status 200 (some r)) (some ps)).filter
        (fun x => x.name = "weblogic_server_up") = [] := by
  have hfind : findServer c.serverName r.body.items = none := by
    rw [findServer_eq_find?]
    exact h
  have hsv : serverUpSamples c.serverName r.body.items = [] := by
    unfold serverUpSamples
    rw [hfind]
  have hmain : collect c (.status 200 (some r)) (some ps)
      = mkMetric adminUpDesc 1 [] :: processArgSamples c.serverName ps := by
    rw [collect_success, hsv]
    rfl
  refine ⟨hmain, ?_⟩
  rw [hmain, List.filter_cons]
  simp only [mkMetric, adminUpDesc]
  simp [processArgSamples_filter_server]

/-- C5 witness: the target A absent from a concrete response; the scrape
is the admin sample followed by the process samples, with no server_up. -/
theorem C5_witness :
    collect ⟨"http://h:7001", "u", "pw", "A"⟩
        (.status 200 (some ⟨⟨[⟨"B", "RUNNING"⟩]⟩⟩))
        (some [⟨7, some ["java", "-Dweblogic.Name=A"]⟩])
        = mkMetric adminUpDesc 1 [] ::
          processArgSamples "A" [⟨7, some ["java", "-Dweblogic.Name=A"]⟩] ∧
      (collect ⟨"http://h:7001", "u", "pw", "A"⟩
        (.status 200 (some ⟨⟨[⟨"B", "RUNNING"⟩]⟩⟩))
        (some [⟨7, some ["java", "-Dweblogic.Name=A"]⟩])).filter
        (fun x => x.name = "weblogic_server_up") = [] :=
  C5_absent_server ⟨"http://h:7001", "u", "pw", "A"⟩ ⟨⟨[⟨"B", "RUNNING"⟩]⟩⟩
    [⟨7, some ["java", "-Dweblogic.Name=A"]⟩] (by decide)

/-- C6: a process whose readable argument vector contains the marker token
for the configured server yields exactly one process_arg sample per
argument — value 1, labelled with the server name, the pid in decimal, the
zero-based index, and the literal argument. -/
theorem C6_one_sample_per_argument (n : String) (p : OSProcess)
    (args : List String) (hc : p.cmdline = some args)
    (hm : weblogicNameMarker n ∈ args) :
    (processArgSamplesFor n p).length = args.length ∧
    ∀ (i : Nat) (a : String), args[i]? = some a →
      (processArgSamplesFor n p)[i]?
        = some (mkMetric processArgDesc 1 [n, toString p.pid, toString i, a]) := by
  unfold processArgSamplesFor
  rw [hc]
  dsimp only
  rw [if_pos hm]
  constructor
  · rw [List.length_map, List.enum_length]
  · intro i a ha
    rw [List.getElem?_map, List.getElem?_enum, ha]
    rfl

/-- C6 witness: a concrete three-argument process yields three samples,
and the sample at index 1 carries the expected labels. -/
theorem C6_witness :
    (processArgSamplesFor "A" ⟨42, some ["java", "-Dweblogic.Name=A", "-Xms2g"]⟩).length
        = 3 ∧
      (processArgSamplesFor "A" ⟨42, some ["java", "-Dweblogic.Name=A", "-Xms2g"]⟩)[1]?
        = some (mkMetric processArgDesc 1
            ["A", toString (42 : Int), toString (1 : Nat), "-Dweblogic.Name=A"]) :=
  ⟨(C6_one_sample_per_argument "A" ⟨42, some ["java", "-Dweblogic.Name=A", "-Xms2g"]⟩
      ["java", "-Dweblogic.Name=A", "-Xms2g"] rfl (by decide)).1,
    (C6_one_sample_per_argument "A" ⟨42, some ["java", "-Dweblogic.Name=A", "-Xms2g"]⟩
      ["java", "-Dweblogic.Name=A", "-Xms2g"] rfl (by decide)).2
      1 "-Dweblogic.Name=A" (by decide)⟩

/-- C10: the number of process_arg samples for a process depends only on
the marker being present, not on how often it occurs: an argument vector
of length L containing the marker k ≥ 1 times still yields exactly L
samples. -/
theorem C10_marker_multiplicity_irrelevant (n : String) (pid : Int)
    (args : List String) (k : Nat) (hk : 1 ≤ k)
    (hcount : args.count (weblogicNameMarker n) = k) :
    (processArgSamplesFor n ⟨pid, some args⟩).length = args.length := by
  have hpos : 0 < args.count (weblogicNameMarker n) := by
    rw [hcount]
    exact hk
  have hm : weblogicNameMarker n ∈ args := List.count_pos_iff.mp hpos
  unfold processArgSamplesFor
  dsimp only
  rw [if_pos hm, List.length_map, List.enum_length]

/-- C10 witness: the marker occurring twice in a three-argument vector
still yields three samples, not six. -/
theorem C10_witness :
    (processArgSamplesFor "A"
        ⟨7, some ["-Dweblogic.Name=A", "x", "-Dweblogic.Name=A"]⟩).length = 3 :=
  C10_marker_multiplicity_irrelevant "A" 7
    ["-Dweblogic.Name=A", "x", "-Dweblogic.Name=A"] 2 (by decide) (by decide)

/-- C8: RoundTrip forwards every request to the underlying transport after
setting its Authorization header to Basic followed by the standard base64
encoding of username:password, leaving host and path untouched — so the
header value is independent of the request's target. -/
theorem C8_basic_auth_every_request {ρ : Type} (t : BasicAuthTransport)
    (transport : Request → ρ) (req : Request) :
    t.roundTrip transport req = transport (t.forwarded req) ∧
    headerGet (t.forwarded req).headers "Authorization"
      = some ("Basic " ++ base64StdEncode (t.username ++ ":" ++ t.password)) ∧
    (t.forwarded req).host = req.host ∧ (t.forwarded req).path = req.path := by
  refine ⟨rfl, ?_, rfl, rfl⟩
  unfold BasicAuthTransport.forwarded headerGet headerSet
  simp [List.find?_cons]

/-- Sanity check of the base64 model against an RFC 4648 test vector. -/
theorem base64StdEncode_user_pass : base64StdEncode "user:pass" = "dXNlcjpwYXNz" := by
  decide

end WeblogicCheck
